import Mathlib

set_option maxHeartbeats 1000000

/-!
Verification of the IPC protocol engine in `villager-bot/util/ipc.py`: the
JSON payload codec (`CustomJSONEncoder` / `special_obj_hook`), the frame codec
(`Stream.read_packet` / `Stream.write_packet`), the client-side correlator
(`Client.request` / `Client.read_packets`) and the server-side per-connection
dispatcher (`Server.handle_connection`).

Python values are embedded shallowly: JSON payloads become an inductive tree,
byte strings become lists of naturals, dictionaries become association lists
with unique keys, and the stateful coroutines become explicit state-passing
functions.  Structural equality on the embedded values refines Python `==`
(in particular a `jset` lists its elements in one enumeration order, so equal
embeddings imply equal Python sets).
-/

/- ===== payload codec: CustomJSONEncoder and special_obj_hook ===== -/

mutual
/-- JSON-representable payload value: strings, numbers, booleans, null,
ordered sequences, string-keyed mappings, and Python sets (which have no
native wire representation). -/
inductive JVal where
  | jnull : JVal
  | jbool (b : Bool) : JVal
  | jnum (n : Int) : JVal
  | jstr (s : String) : JVal
  | jarr (xs : JList) : JVal
  | jobj (kvs : JObj) : JVal
  | jset (xs : JList) : JVal

/-- ordered sequence of payload values. -/
inductive JList where
  | nil : JList
  | cons (v : JVal) (tl : JList) : JList

/-- string-keyed mapping of payload values, in insertion order; keys produced
by a Python dict are unique. -/
inductive JObj where
  | nil : JObj
  | cons (k : String) (v : JVal) (tl : JObj) : JObj
end

/-- key lookup on a mapping, as the Python tests `"_set_object" in dct` and
`dct["_set_object"]` perform it. -/
def lookupO : JObj → String → Option JVal
  | .nil, _ => none
  | .cons k v tl, key => if k = key then some v else lookupO tl key

mutual
/-- serialization tree transform performed by `cj.dumps(data, cls=CustomJSONEncoder)`:
values are emitted recursively, and `CustomJSONEncoder.default` rewrites every
set into a mapping with the single key "_set_object" holding the list of its
elements (which the encoder then serializes recursively in turn). -/
def encode : JVal → JVal
  | .jnull => .jnull
  | .jbool b => .jbool b
  | .jnum n => .jnum n
  | .jstr s => .jstr s
  | .jarr xs => .jarr (encodeL xs)
  | .jobj kvs => .jobj (encodeO kvs)
  | .jset xs => .jobj (.cons "_set_object" (.jarr (encodeL xs)) .nil)

/-- elementwise `encode` on a sequence. -/
def encodeL : JList → JList
  | .nil => .nil
  | .cons v tl => .cons (encode v) (encodeL tl)

/-- valuewise `encode` on a mapping. -/
def encodeO : JObj → JObj
  | .nil => .nil
  | .cons k v tl => .cons k (encode v) (encodeO tl)
end

/-- the object hook `special_obj_hook`, applied by `cj.loads` to every decoded
mapping (bottom-up): a mapping containing the key "_set_object" is replaced by
`set(dct["_set_object"])`.  When that value is not a sequence the Python call
would fail (for the scalar values appearing here); no encoded payload produces
that shape, and no theorem below exercises that branch. -/
def special_obj_hook (kvs : JObj) : Except String JVal :=
  match lookupO kvs "_set_object" with
  | some (.jarr ys) => .ok (.jset ys)
  | some _ => .error "TypeError: set() argument must be iterable"
  | none => .ok (.jobj kvs)

mutual
/-- deserialization performed by `cj.loads(data, object_hook=special_obj_hook)`:
the document tree is rebuilt recursively and the object hook is applied to each
mapping after its values are decoded.  Raw JSON text never denotes a set, so a
`jset` at decode input is a parse error. -/
def decode : JVal → Except String JVal
  | .jnull => .ok .jnull
  | .jbool b => .ok (.jbool b)
  | .jnum n => .ok (.jnum n)
  | .jstr s => .ok (.jstr s)
  | .jarr xs =>
    match decodeL xs with
    | .ok ys => .ok (.jarr ys)
    | .error e => .error e
  | .jobj kvs =>
    match decodeO kvs with
    | .ok kvs2 => special_obj_hook kvs2
    | .error e => .error e
  | .jset _ => .error "JSONDecodeError: raw text never denotes a set"

/-- elementwise `decode` on a sequence. -/
def decodeL : JList → Except String JList
  | .nil => .ok .nil
  | .cons v tl =>
    match decode v with
    | .error e => .error e
    | .ok w =>
      match decodeL tl with
      | .error e => .error e
      | .ok ws => .ok (.cons w ws)

/-- valuewise `decode` on a mapping. -/
def decodeO : JObj → Except String JObj
  | .nil => .ok .nil
  | .cons k v tl =>
    match decode v with
    | .error e => .error e
    | .ok w =>
      match decodeO tl with
      | .error e => .error e
      | .ok ws => .ok (.cons k w ws)
end

mutual
/-- no mapping anywhere in the payload carries the reserved key "_set_object". -/
def noSetKey : JVal → Bool
  | .jnull => true
  | .jbool _ => true
  | .jnum _ => true
  | .jstr _ => true
  | .jarr xs => noSetKeyL xs
  | .jobj kvs => (lookupO kvs "_set_object").isNone && noSetKeyO kvs
  | .jset xs => noSetKeyL xs

/-- `noSetKey` over every element of a sequence. -/
def noSetKeyL : JList → Bool
  | .nil => true
  | .cons v tl => noSetKey v && noSetKeyL tl

/-- `noSetKey` over every value of a mapping. -/
def noSetKeyO : JObj → Bool
  | .nil => true
  | .cons _ v tl => noSetKey v && noSetKeyO tl
end

mutual
theorem decode_encode_aux (v : JVal) (h : noSetKey v = true) :
    decode (encode v) = .ok v := by
  cases v with
  | jnull => simp [encode, decode]
  | jbool b => simp [encode, decode]
  | jnum n => simp [encode, decode]
  | jstr s => simp [encode, decode]
  | jarr xs =>
    have hx : noSetKeyL xs = true := by simpa [noSetKey] using h
    simp [encode, decode, decode_encode_auxL xs hx]
  | jobj kvs =>
    have h2 : lookupO kvs "_set_object" = none ∧ noSetKeyO kvs = true := by
      simpa [noSetKey] using h
    simp [encode, decode, decode_encode_auxO kvs h2.2, special_obj_hook, h2.1]
  | jset xs =>
    have hx : noSetKeyL xs = true := by simpa [noSetKey] using h
    simp [encode, decode, decodeO, decode_encode_auxL xs hx, special_obj_hook,
      lookupO]

theorem decode_encode_auxL (xs : JList) (h : noSetKeyL xs = true) :
    decodeL (encodeL xs) = .ok xs := by
  cases xs with
  | nil => simp [encodeL, decodeL]
  | cons v tl =>
    have h1 : noSetKey v = true :=
      (Bool.and_eq_true _ _).mp (by simpa [noSetKeyL] using h) |>.1
    have h2 : noSetKeyL tl = true :=
      (Bool.and_eq_true _ _).mp (by simpa [noSetKeyL] using h) |>.2
    simp [encodeL, decodeL, decode_encode_aux v h1, decode_encode_auxL tl h2]

theorem decode_encode_auxO (kvs : JObj) (h : noSetKeyO kvs = true) :
    decodeO (encodeO kvs) = .ok kvs := by
  cases kvs with
  | nil => simp [encodeO, decodeO]
  | cons k v tl =>
    have h1 : noSetKey v = true :=
      (Bool.and_eq_true _ _).mp (by simpa [noSetKeyO] using h) |>.1
    have h2 : noSetKeyO tl = true :=
      (Bool.and_eq_true _ _).mp (by simpa [noSetKeyO] using h) |>.2
    simp [encodeO, decodeO, decode_encode_aux v h1, decode_encode_auxO tl h2]
end

/-- C2 (amended): decode–encode round trip holds for every payload built from
strings, numbers, booleans, null, sequences, mappings and sets, provided no
mapping in the payload itself carries the reserved key "_set_object" (the
format's accepted ambiguity: such a mapping decodes to a set). -/
theorem roundtrip_no_set_key (v : JVal) (h : noSetKey v = true) :
    decode (encode v) = .ok v :=
  decode_encode_aux v h

/-- C2 counterexample: the payload `{"_set_object": []}` is built only from a
mapping and a sequence, yet `decode (encode payload)` yields the empty set,
not the original mapping — the round trip fails on it as stated. -/
theorem roundtrip_set_shape_ambiguity :
    decode (encode (.jobj (.cons "_set_object" (.jarr .nil) .nil))) ≠
      .ok (.jobj (.cons "_set_object" (.jarr .nil) .nil)) := by
  simp [encode, encodeO, encodeL, decode, decodeO, decodeL, special_obj_hook,
    lookupO]

/-- C2 witness: a mapping holding the set `{1}` under key "xs" satisfies the
amended hypothesis and round-trips. -/
theorem roundtrip_no_set_key_check :
    noSetKey (.jobj (.cons "xs" (.jset (.cons (.jnum 1) .nil)) .nil)) = true ∧
      decode (encode (.jobj (.cons "xs" (.jset (.cons (.jnum 1) .nil)) .nil))) =
        .ok (.jobj (.cons "xs" (.jset (.cons (.jnum 1) .nil)) .nil)) :=
  ⟨by simp [noSetKey, noSetKeyL, noSetKeyO, lookupO],
   roundtrip_no_set_key _ (by simp [noSetKey, noSetKeyL, noSetKeyO, lookupO])⟩

/- ===== frame codec: Stream.write_packet and Stream.read_packet ===== -/

/-- LENGTH_LENGTH = struct.calcsize(">i") = 4. -/
def LENGTH_LENGTH : Nat := 4

/-- struct.pack(">i", n): the four bytes of a big-endian 32-bit integer, via
its two's-complement image modulo 2^32 (the lengths packed here are the small
non-negative byte counts of payloads). -/
def pack_be_i32 (n : Int) : List Nat :=
  [((n % 4294967296).toNat) / 16777216 % 256,
   ((n % 4294967296).toNat) / 65536 % 256,
   ((n % 4294967296).toNat) / 256 % 256,
   ((n % 4294967296).toNat) % 256]

/-- frame built by Stream.write_packet from the UTF-8 serialized payload bytes:
`struct.pack(">i", len(data)) + data`. -/
def packetFrame (data : List Nat) : List Nat :=
  pack_be_i32 (Int.ofNat data.length) ++ data

/-- Stream.write_packet, with the writer modelled as the list of bytes written
so far and the serialized payload bytes as input.  Building
`packet = struct.pack(">i", len(data)) + data` comes first, and struct.pack
raises struct.error when its argument does not fit a signed 32-bit integer
(len(data) is non-negative, so the failing case is a length of 2^31 or more) —
before the size check is even reached; a built frame longer than 65535 bytes
then raises `ValueError("Packet is too big to send...")`.  Either error fires
before `self.writer.write(packet)` runs, leaving the writer untouched;
otherwise the frame is appended to the stream. -/
def write_packet (written : List Nat) (data : List Nat) :
    List Nat × Option String :=
  if (data.length : Int) < -2147483648 ∨
      2147483648 ≤ (data.length : Int) then
    (written, some "struct.error: argument out of range")
  else if 65535 < (packetFrame data).length then
    (written, some "Packet is too big to send...")
  else (written ++ packetFrame data, none)

theorem packetFrame_length (data : List Nat) :
    (packetFrame data).length = 4 + data.length := by
  simp [packetFrame, pack_be_i32]
  omega

theorem write_packet_eq (w data : List Nat) :
    write_packet w data =
      (if 2147483648 ≤ data.length then
        (w, some "struct.error: argument out of range")
      else if 65535 < 4 + data.length then
        (w, some "Packet is too big to send...")
      else (w ++ packetFrame data, none)) := by
  unfold write_packet
  by_cases h : 2147483648 ≤ data.length
  · rw [if_pos (Or.inr (by omega)), if_pos h]
  · rw [if_neg (by omega), if_neg h, packetFrame_length data]

/-- C4 (amended): a payload of fewer than 2^31 serialized bytes whose frame
(4-byte length plus serialized bytes) would exceed 65535 bytes makes
write_packet fail with the size-limit ValueError and write nothing, the
stream left as it was; a payload at or under the limit is framed and written
with no error; a payload of 2^31 bytes or more instead fails with
struct.error while the length field is packed — likewise before any bytes
reach the stream. -/
theorem write_packet_size_limit (w data : List Nat) :
    (data.length < 2147483648 → 65535 < 4 + data.length →
      write_packet w data = (w, some "Packet is too big to send...")) ∧
    (4 + data.length ≤ 65535 →
      write_packet w data = (w ++ packetFrame data, none)) ∧
    (2147483648 ≤ data.length →
      write_packet w data = (w, some "struct.error: argument out of range")) := by
  rw [write_packet_eq]
  refine ⟨?_, ?_, ?_⟩
  · intro h1 h2
    rw [if_neg (by omega), if_pos h2]
  · intro h
    rw [if_neg (by omega), if_neg (by omega)]
  · intro h
    rw [if_pos h]

/-- C4 counterexample: a payload of 2^31 zero bytes has a frame far beyond
65535 bytes, yet write_packet does not fail with the size-limit ValueError:
struct.pack raises struct.error while building the length field, before the
size check is reached (the stream is still untouched either way). -/
theorem write_packet_size_limit_overflow :
    65535 < 4 + (List.replicate 2147483648 (0 : Nat)).length ∧
      write_packet [] (List.replicate 2147483648 (0 : Nat)) =
        ([], some "struct.error: argument out of range") ∧
      write_packet [] (List.replicate 2147483648 (0 : Nat)) ≠
        ([], some "Packet is too big to send...") := by
  have h : write_packet [] (List.replicate 2147483648 (0 : Nat)) =
      ([], some "struct.error: argument out of range") := by
    rw [write_packet_eq, List.length_replicate, if_pos (by omega)]
  refine ⟨by rw [List.length_replicate]; omega, h, ?_⟩
  rw [h]
  simp

/-- C4 witness: the 65600-byte payload is under 2^31 and over the limit, so
it gets the size error with the stream unchanged; the two-byte payload "hi"
is framed and written; the 2^31-byte payload takes the struct.error path. -/
theorem write_packet_size_limit_check :
    ((List.replicate 65600 (0 : Nat)).length < 2147483648 ∧
      65535 < 4 + (List.replicate 65600 (0 : Nat)).length ∧
      write_packet [] (List.replicate 65600 (0 : Nat)) =
        ([], some "Packet is too big to send...")) ∧
    (4 + [(104 : Nat), 105].length ≤ 65535 ∧
      write_packet [] [104, 105] = ([] ++ packetFrame [104, 105], none)) ∧
    (2147483648 ≤ (List.replicate 2147483648 (0 : Nat)).length ∧
      write_packet [] (List.replicate 2147483648 (0 : Nat)) =
        ([], some "struct.error: argument out of range")) :=
  ⟨⟨by rw [List.length_replicate]; omega,
    by rw [List.length_replicate]; omega,
    (write_packet_size_limit [] (List.replicate 65600 0)).1
      (by rw [List.length_replicate]; omega)
      (by rw [List.length_replicate]; omega)⟩,
   ⟨by decide, (write_packet_size_limit [] [104, 105]).2.1 (by decide)⟩,
   ⟨by rw [List.length_replicate],
    (write_packet_size_limit [] (List.replicate 2147483648 0)).2.2
      (by rw [List.length_replicate])⟩⟩

/-- big-endian unsigned 32-bit byte representation of N, as the specification
describes the length field. -/
def beU32 (n : Nat) : List Nat :=
  [n / 16777216 % 256, n / 65536 % 256, n / 256 % 256, n % 256]

/-- C8: for a payload of N serialized bytes with N ≤ 65531, the frame is
exactly 4 + N bytes: the first four are N in big-endian unsigned form and the
rest are the payload bytes themselves. -/
theorem frame_shape (data : List Nat) (h : data.length ≤ 65531) :
    (packetFrame data).length = 4 + data.length ∧
      List.take 4 (packetFrame data) = beU32 data.length ∧
      List.drop 4 (packetFrame data) = data := by
  have key : (((data.length : Int)) % 4294967296).toNat = data.length := by
    omega
  refine ⟨packetFrame_length data, ?_, ?_⟩
  · simp [packetFrame, pack_be_i32, beU32, key, List.take_succ_cons]
  · simp [packetFrame, pack_be_i32]

/-- C8 witness: the frame for the two payload bytes of "hi". -/
theorem frame_shape_check :
    [(104 : Nat), 105].length ≤ 65531 ∧
      ((packetFrame [104, 105]).length = 4 + [(104 : Nat), 105].length ∧
        List.take 4 (packetFrame [104, 105]) = beU32 [(104 : Nat), 105].length ∧
        List.drop 4 (packetFrame [104, 105]) = [104, 105]) :=
  ⟨by simp, frame_shape [104, 105] (by simp)⟩

/-- asyncio StreamReader state: the bytes currently buffered, then the chunks
that are still to arrive on the transport (the schedule in which the peer's
bytes reach the reader); both empty means end of stream. -/
structure RState where
  buf : List Nat
  chunks : List (List Nat)
deriving DecidableEq

/-- StreamReader.read(n): waits only while the buffer is empty and data is
still to arrive, then returns UP TO n bytes — whatever the buffer holds, never
spanning into data that has not yet arrived; at end of stream it returns the
empty byte string. -/
def readUpTo (n : Nat) (st : RState) : List Nat × RState :=
  match st.buf, st.chunks with
  | [], [] => ([], st)
  | [], c :: cs => (c.take n, ⟨c.drop n, cs⟩)
  | b, cs => (b.take n, ⟨b.drop n, cs⟩)

/-- struct.unpack(">i", b) for a four-byte string b (frame lengths written by
this protocol stay far below 2^31, where the signed reading equals the
unsigned one). -/
def unpack_be_i32 (b : List Nat) : Nat :=
  match b with
  | [b0, b1, b2, b3] => b0 * 16777216 + b1 * 65536 + b2 * 256 + b3
  | _ => 0

/-- Stream.read_packet at the framing level: `self.reader.read(LENGTH_LENGTH)`
then struct.unpack of the result — a struct.error (`none`) unless exactly four
bytes came back — then `self.reader.read(length)`, whose result is handed
straight to `cj.loads` with no check that `length` bytes were actually
obtained.  Returns the declared length, the bytes passed to the decoder, and
the reader state left behind. -/
def read_packet (st : RState) : Option (Nat × List Nat × RState) :=
  match readUpTo LENGTH_LENGTH st with
  | (pre, st1) =>
    if pre.length = 4 then
      match readUpTo (unpack_be_i32 pre) st1 with
      | (data, st2) => some (unpack_be_i32 pre, data, st2)
    else none

/-- C5: the frame 00 00 00 02 "12" delivered in three arrival chunks makes
read_packet hand the single byte "1" to the decoder as a complete packet —
the declared length is 2 but only one payload byte is read, and the byte "2"
is left to corrupt the next frame; and a length field split across two
arrivals yields a 2-byte read and a struct.error instead of the remaining
length bytes being awaited. -/
theorem read_packet_partial_frame :
    read_packet ⟨[], [[0, 0, 0, 2], [49], [50]]⟩ =
        some (2, [49], ⟨[], [[50]]⟩) ∧
      read_packet ⟨[], [[0, 0], [0, 2, 49, 50]]⟩ = none := by
  constructor <;> rfl

/- ===== client-side correlator: Client.request and Client.read_packets ===== -/

/-- scalar packet field values that the correlator and the dispatcher inspect:
correlation ids, auth secrets and type tags (strings), success flags
(booleans) and numeric payload fields; every other payload content is opaque
to this logic in the source. -/
inductive PV where
  | ps (s : String)
  | pb (b : Bool)
  | pn (n : Int)
deriving DecidableEq

/-- packet envelope: a string-keyed mapping with unique keys, in insertion
order, as a Python dict / ClassyDict holds it. -/
abbrev Packet := List (String × PV)

/-- dict field read, `p.get(k)`. -/
def getF : Packet → String → Option PV
  | [], _ => none
  | (k1, v) :: tl, k => if k1 = k then some v else getF tl k

/-- dict field assignment `p[k] = v`: overwrite the existing entry in place,
or append a new one. -/
def setF : Packet → String → PV → Packet
  | [], k, v => [(k, v)]
  | (k1, v1) :: tl, k, v =>
    if k1 = k then (k, v) :: tl else (k1, v1) :: setF tl k v

/-- one entry of `Client.expected_packets`: the `[asyncio.Event, None]` pair —
whether the event has been set, and the response packet stored in the slot. -/
structure PendingRec where
  eventSet : Bool
  slot : Option Packet
deriving DecidableEq

/-- the `Client.expected_packets` dict, keyed by correlation id. -/
abbrev PendingMap := List (String × PendingRec)

/-- dict read on the pending table. -/
def getRec : PendingMap → String → Option PendingRec
  | [], _ => none
  | (k1, r) :: tl, k => if k1 = k then some r else getRec tl k

/-- dict assignment on the pending table. -/
def setRec : PendingMap → String → PendingRec → PendingMap
  | [], k, r => [(k, r)]
  | (k1, r1) :: tl, k, r =>
    if k1 = k then (k, r) :: tl else (k1, r1) :: setRec tl k r

/-- dict membership test `packet.id in self.expected_packets`. -/
def hasKey : PendingMap → String → Bool
  | [], _ => false
  | (k1, _) :: tl, k => if k1 = k then true else hasKey tl k

/-- client state: the `expected_packets` table and the `current_id` counter,
together with the observable logs of the broadcast tasks the receive loop has
spawned and of the packets sent on the stream. -/
structure ClientState where
  expected : PendingMap
  current_id : Nat
  broadcasts : List Packet
  sent : List Packet
deriving DecidableEq

/-- `Client.__init__`: empty table, counter at zero. -/
def initClient : ClientState := ⟨[], 0, [], []⟩

/-- Modelled from the spec: whether `packet.id in self.expected_packets` holds
and for which key.  The attribute access `packet.id` is decided by ClassyDict
from the classyjson dependency, which is not under src; per the specification
a packet whose id matches no pending request record — one with no id field
included — belongs to the broadcast path.  An id value that is not a string
never equals a string table key. -/
def idMatches (p : Packet) (m : PendingMap) : Option String :=
  match getF p "id" with
  | some (.ps i) => if hasKey m i then some i else none
  | _ => none

/-- one iteration of the `Client.read_packets` loop body on an arriving
packet: a matching pending record gets the packet stored in its slot and its
event set; any other packet is handed to `handle_broadcast` as a fresh task,
exactly once. -/
def read_packets_step (st : ClientState) (p : Packet) : ClientState :=
  match idMatches p st.expected with
  | some i => { st with expected := setRec st.expected i ⟨true, some p⟩ }
  | none => { st with broadcasts := st.broadcasts ++ [p] }

/-- synchronous first half of `Client.request`, up to and including the send:
writes the fresh correlation id "c{current_id}" into the caller's envelope
(Python mutates the dict in place; the mutated mapping is returned here),
increments the counter, registers `[asyncio.Event(), None]` under the id, and
writes the packet to the stream.  Returns the caller's mutated envelope, the
assigned id, and the new client state. -/
def request_start (st : ClientState) (p : Packet) :
    Packet × String × ClientState :=
  (setF p "id" (.ps ("c" ++ toString st.current_id)),
   "c" ++ toString st.current_id,
   { st with
     current_id := st.current_id + 1,
     expected := setRec st.expected ("c" ++ toString st.current_id) ⟨false, none⟩,
     sent := st.sent ++ [setF p "id" (.ps ("c" ++ toString st.current_id))] })

/-- second half of `Client.request`, resumed after `event.wait()`:
`return self.expected_packets[packet_id][1]`. -/
def request_finish (st : ClientState) (pid : String) : Option Packet :=
  match getRec st.expected pid with
  | some r => r.slot
  | none => none

/-- interleaved client events: a `request` call being issued, or a packet
arriving at the background receive loop. -/
inductive CEvent where
  | issue (p : Packet)
  | recv (p : Packet)

/-- run a sequence of client events from a state. -/
def execTrace : ClientState → List CEvent → ClientState
  | st, [] => st
  | st, .issue p :: t => execTrace (request_start st p).2.2 t
  | st, .recv p :: t => execTrace (read_packets_step st p) t

theorem getRec_setRec_self (m : PendingMap) (k : String) (r : PendingRec) :
    getRec (setRec m k r) k = some r := by
  induction m with
  | nil => simp [setRec, getRec]
  | cons hd tl ih =>
    obtain ⟨k1, r1⟩ := hd
    by_cases h : k1 = k
    · simp [setRec, getRec, h]
    · simp [setRec, getRec, h, ih]

theorem getRec_setRec_ne (m : PendingMap) (k1 k2 : String) (r : PendingRec)
    (h : k1 ≠ k2) : getRec (setRec m k1 r) k2 = getRec m k2 := by
  induction m with
  | nil => simp [setRec, getRec, h]
  | cons hd tl ih =>
    obtain ⟨ka, ra⟩ := hd
    by_cases ha : ka = k1
    · subst ha
      simp [setRec, getRec, h]
    · simp [setRec, getRec, ha, ih]

/-- invariant of `expected_packets`: a filled slot always holds a packet whose
id field is the record's own key, because `read_packets` stores an arriving
packet under `packet.id` itself. -/
def SlotInv (m : PendingMap) : Prop :=
  ∀ k r p, getRec m k = some r → r.slot = some p → getF p "id" = some (.ps k)

theorem slotInv_setRec_empty (m : PendingMap) (k : String) (hm : SlotInv m) :
    SlotInv (setRec m k ⟨false, none⟩) := by
  intro k2 r p hget hslot
  by_cases hk : k = k2
  · subst hk
    rw [getRec_setRec_self] at hget
    cases hget
    simp at hslot
  · rw [getRec_setRec_ne m k k2 _ hk] at hget
    exact hm k2 r p hget hslot

theorem slotInv_setRec_match (m : PendingMap) (i : String) (q : Packet)
    (hm : SlotInv m) (hq : getF q "id" = some (.ps i)) :
    SlotInv (setRec m i ⟨true, some q⟩) := by
  intro k2 r p hget hslot
  by_cases hk : i = k2
  · subst hk
    rw [getRec_setRec_self] at hget
    cases hget
    simp at hslot
    subst hslot
    exact hq
  · rw [getRec_setRec_ne m i k2 _ hk] at hget
    exact hm k2 r p hget hslot

theorem slotInv_read_step (st : ClientState) (p : Packet)
    (h : SlotInv st.expected) : SlotInv (read_packets_step st p).expected := by
  unfold read_packets_step
  cases hm : idMatches p st.expected with
  | none => simpa using h
  | some i =>
    have hid : getF p "id" = some (.ps i) := by
      unfold idMatches at hm
      cases hg : getF p "id" with
      | none => rw [hg] at hm; exact absurd hm (by simp)
      | some v =>
        cases v with
        | ps s =>
          rw [hg] at hm
          by_cases hk : hasKey st.expected s = true
          · simp [hk] at hm
            subst hm
            rfl
          · simp [hk] at hm
        | pb b => rw [hg] at hm; exact absurd hm (by simp)
        | pn n => rw [hg] at hm; exact absurd hm (by simp)
    simpa using slotInv_setRec_match st.expected i p h hid

theorem slotInv_execTrace (st : ClientState) (t : List CEvent)
    (h : SlotInv st.expected) : SlotInv (execTrace st t).expected := by
  induction t generalizing st with
  | nil => exact h
  | cons e t ih =>
    cases e with
    | issue p =>
      exact ih _ (by simpa [request_start] using
        slotInv_setRec_empty st.expected ("c" ++ toString st.current_id) h)
    | recv p => exact ih _ (slotInv_read_step st p h)

/-- C1: over any interleaving of issued requests and arriving responses, a
`request` call that completes for correlation id i returns a packet whose id
field is exactly i — responses arriving in any order are dispatched to the
waiter whose id matches, never to another caller. -/
theorem request_returns_own_id (t : List CEvent) (i : String) (p : Packet)
    (h : request_finish (execTrace initClient t) i = some p) :
    getF p "id" = some (.ps i) := by
  have hinv : SlotInv (execTrace initClient t).expected :=
    slotInv_execTrace initClient t (by intro k r q hg _; simp [initClient, getRec] at hg)
  unfold request_finish at h
  cases hg : getRec (execTrace initClient t).expected i with
  | none => rw [hg] at h; exact absurd h (by simp)
  | some r => rw [hg] at h; exact hinv i r p hg h

/-- C1 witness: two concurrent requests get ids "c0" and "c1"; the responses
arrive out of order ("c1" first), yet the "c0" waiter ends with the packet
bearing id "c0". -/
theorem request_returns_own_id_check :
    request_finish (execTrace initClient
        [.issue [("type", .ps "a")], .issue [("type", .ps "b")],
         .recv [("id", .ps "c1"), ("n", .pn 1)],
         .recv [("id", .ps "c0"), ("n", .pn 0)]]) "c0" =
      some [("id", .ps "c0"), ("n", .pn 0)] ∧
    getF [("id", PV.ps "c0"), ("n", PV.pn 0)] "id" = some (.ps "c0") :=
  ⟨by decide,
   request_returns_own_id
     [.issue [("type", .ps "a")], .issue [("type", .ps "b")],
      .recv [("id", .ps "c1"), ("n", .pn 1)],
      .recv [("id", .ps "c0"), ("n", .pn 0)]]
     "c0" [("id", PV.ps "c0"), ("n", PV.pn 0)] (by decide)⟩

/-- C6 counterexample: one request is issued ("c0"), its response arrives and
is delivered to the caller (`request_finish` returns it), yet the pending
record keyed "c0" still exists in `expected_packets` — the code never deletes
entries, so the record outlives the `request` call. -/
theorem pending_record_survives :
    request_finish (execTrace initClient
        [.issue [("type", .ps "ping")],
         .recv [("id", .ps "c0"), ("pong", .pb true)]]) "c0" =
      some [("id", .ps "c0"), ("pong", .pb true)] ∧
    getRec (execTrace initClient
        [.issue [("type", .ps "ping")],
         .recv [("id", .ps "c0"), ("pong", .pb true)]]).expected "c0" ≠ none := by
  constructor
  · decide
  · decide

theorem hasKey_setRec (m : PendingMap) (k1 k : String) (r : PendingRec)
    (h : hasKey m k = true) : hasKey (setRec m k1 r) k = true := by
  induction m with
  | nil => simp [hasKey] at h
  | cons hd tl ih =>
    obtain ⟨ka, ra⟩ := hd
    by_cases ha : ka = k1
    · subst ha
      by_cases hb : ka = k
      · simp [setRec, hasKey, hb]
      · simp [hasKey, hb] at h
        simp [setRec, hasKey, hb, h]
    · by_cases hb : ka = k
      · subst hb
        simp [setRec, hasKey, ha]
      · simp [hasKey, hb] at h
        simp [setRec, hasKey, ha, hb, ih h]

theorem hasKey_read_step (st : ClientState) (q : Packet) (k : String)
    (h : hasKey st.expected k = true) :
    hasKey (read_packets_step st q).expected k = true := by
  unfold read_packets_step
  cases idMatches q st.expected with
  | none => simpa using h
  | some i => simpa using hasKey_setRec st.expected i k _ h

/-- C6 (amended): a pending request record is filled and signalled when its
response arrives, but it is never destroyed — once a correlation id is a key
of `expected_packets` it remains one under every further request issued and
every further packet received, surviving the `request` call that created it. -/
theorem pending_records_never_removed (st : ClientState) (t : List CEvent)
    (k : String) (h : hasKey st.expected k = true) :
    hasKey (execTrace st t).expected k = true := by
  induction t generalizing st with
  | nil => exact h
  | cons e t ih =>
    cases e with
    | issue p =>
      exact ih _ (by simpa [request_start] using
        hasKey_setRec st.expected ("c" ++ toString st.current_id) k _ h)
    | recv p => exact ih _ (hasKey_read_step st p k h)

/-- C6 witness: the record for "c0" exists after its request was issued, and
still exists after its response arrived, a further request was issued and a
broadcast came in. -/
theorem pending_records_never_removed_check :
    hasKey (execTrace initClient [.issue [("type", .ps "x")]]).expected "c0" =
        true ∧
      hasKey (execTrace (execTrace initClient [.issue [("type", .ps "x")]])
          [.recv [("id", .ps "c0")], .issue [("q", .pb false)],
           .recv [("type", .ps "news")]]).expected "c0" = true :=
  ⟨by decide,
   pending_records_never_removed (execTrace initClient [.issue [("type", .ps "x")]])
     [.recv [("id", .ps "c0")], .issue [("q", .pb false)],
      .recv [("type", .ps "news")]]
     "c0" (by decide)⟩

/-- C7: a packet arriving at the receive loop whose id matches no pending
request record — a packet with no id field included — changes nothing but the
broadcast log: it is handed to the broadcast handler exactly once, no pending
record is touched and no waiter is resolved. -/
theorem unmatched_packet_broadcast (st : ClientState) (p : Packet)
    (h : idMatches p st.expected = none) :
    read_packets_step st p = { st with broadcasts := st.broadcasts ++ [p] } := by
  unfold read_packets_step
  rw [h]

/-- C7 witness: a packet with no id field at all, arriving while one request
("c9") is pending, goes to the broadcast log exactly once and leaves the
pending table alone. -/
theorem unmatched_packet_broadcast_check :
    idMatches [("type", PV.ps "news")] [("c9", ⟨false, none⟩)] = none ∧
      read_packets_step ⟨[("c9", ⟨false, none⟩)], 10, [], []⟩
          [("type", PV.ps "news")] =
        ⟨[("c9", ⟨false, none⟩)], 10, [[("type", PV.ps "news")]], []⟩ :=
  ⟨by decide,
   (unmatched_packet_broadcast ⟨[("c9", ⟨false, none⟩)], 10, [], []⟩
       [("type", PV.ps "news")] (by decide)).trans (by decide)⟩

theorem getF_setF_self (p : Packet) (k : String) (v : PV) :
    getF (setF p k v) k = some v := by
  induction p with
  | nil => simp [setF, getF]
  | cons hd tl ih =>
    obtain ⟨k1, v1⟩ := hd
    by_cases h : k1 = k
    · simp [setF, getF, h]
    · simp [setF, getF, h, ih]

/-- C9: `Client.request` writes the freshly assigned correlation id — the
string "c" followed by the counter value — into the envelope the caller
passed in, under key "id" (`packet["id"] = packet_id = f"c{self.current_id}"`
mutates the caller-owned dict). -/
theorem request_sets_caller_id (st : ClientState) (p : Packet) :
    getF (request_start st p).1 "id" =
      some (.ps ("c" ++ toString st.current_id)) := by
  simp [request_start, getF_setF_self]

/- ===== server-side dispatcher: Server.handle_connection ===== -/

/-- token identifying one Stream object held in `Server.connections`
(identity of the Python object). -/
abbrev Conn := Nat

/-- observable outcome of running `Server.handle_connection` over the packets
that arrive on one connection: the packets written back on the stream, the
packets handed to handler tasks (each chosen from `packet_handlers` by
`packet.type` with the "missing-packet" fallback — which handler ran is
external business logic), the final `self.connections` list, and how many
packets were read off the stream before the loop ended. -/
structure SrvOut where
  written : List Packet
  dispatched : List Packet
  conns : List Conn
  consumed : Nat
deriving DecidableEq

/-- Modelled from the spec: the auth-response dict is
`{"type": "auth-response", "success": ..., "id": packet.id}`, where
`packet.id` is ClassyDict attribute access from the classyjson dependency,
not under src; the specification has the response echo the request's id, so a
first packet without an id (never sent by this protocol's client, whose
`request` always assigns one) is modelled as echoing nothing. -/
def authResp (success : Bool) (p : Packet) : Packet :=
  [("type", .ps "auth-response"), ("success", .pb success)] ++
    (match getF p "id" with
     | some v => [("id", v)]
     | none => [])

/-- the `while not self.closing` loop of `Server.handle_connection`, over the
packets arriving on the stream while the server is running (`closing` stays
false), threading the auth gate flag and `self.connections`.  An exhausted
arrival list is a connection still blocked in `read_packet`, with nothing
further observed. -/
def handle_loop (secret : String) (stream : Conn) (authed : Bool)
    (conns : List Conn) : List Packet → SrvOut
  | [] => ⟨[], [], conns, 0⟩
  | p :: rest =>
    if authed = false then
      if getF p "auth" = some (.ps secret) then
        SrvOut.mk
          (authResp true p :: (handle_loop secret stream true conns rest).written)
          (handle_loop secret stream true conns rest).dispatched
          (handle_loop secret stream true conns rest).conns
          ((handle_loop secret stream true conns rest).consumed + 1)
      else ⟨[authResp false p], [], conns, 1⟩
    else if getF p "type" = some (.ps "disconnect") then
      ⟨[], [], List.erase conns stream, 1⟩
    else
      SrvOut.mk
        (handle_loop secret stream authed conns rest).written
        (p :: (handle_loop secret stream authed conns rest).dispatched)
        (handle_loop secret stream authed conns rest).conns
        ((handle_loop secret stream authed conns rest).consumed + 1)

/-- `Server.handle_connection`: wrap the stream, append it to
`self.connections`, and run the loop with the auth gate closed. -/
def handle_connection (secret : String) (stream : Conn) (conns : List Conn)
    (incoming : List Packet) : SrvOut :=
  handle_loop secret stream false (conns ++ [stream]) incoming

/-- does the per-connection loop reach a `disconnect` packet in the
authenticated state — the only code path that removes the connection? -/
def reachesDisconnect (secret : String) (authed : Bool) : List Packet → Bool
  | [] => false
  | p :: rest =>
    if authed = false then
      if getF p "auth" = some (.ps secret) then
        reachesDisconnect secret true rest
      else false
    else if getF p "type" = some (.ps "disconnect") then true
    else reachesDisconnect secret authed rest

theorem handle_loop_conns (secret : String) (stream : Conn) (authed : Bool)
    (cs : List Conn) (incoming : List Packet) :
    (handle_loop secret stream authed cs incoming).conns =
      (if reachesDisconnect secret authed incoming
       then List.erase cs stream else cs) := by
  induction incoming generalizing authed with
  | nil => simp [handle_loop, reachesDisconnect]
  | cons p rest ih =>
    by_cases ha : authed = false
    · by_cases hs : getF p "auth" = some (.ps secret)
      · simp [handle_loop, reachesDisconnect, ha, hs, ih]
      · simp [handle_loop, reachesDisconnect, ha, hs]
    · by_cases hd : getF p "type" = some (.ps "disconnect")
      · simp [handle_loop, reachesDisconnect, ha, hd]
      · simp [handle_loop, reachesDisconnect, ha, hd, ih]

/-- C10: the accepted connection is appended to `self.connections`
unconditionally, and the final list drops it exactly when the loop reaches a
`disconnect` packet while authenticated; on every other ending — an
authentication failure in particular — the connection stays in the list. -/
theorem connections_removed_only_on_disconnect (secret : String)
    (stream : Conn) (conns : List Conn) (incoming : List Packet) :
    (handle_connection secret stream conns incoming).conns =
      (if reachesDisconnect secret false incoming
       then List.erase (conns ++ [stream]) stream
       else conns ++ [stream]) :=
  handle_loop_conns secret stream false (conns ++ [stream]) incoming

/-- C3: when the first packet of a connection fails the auth gate (no auth
field, or a value other than the secret) and carries id `pid`, the server
writes exactly one packet — an auth-response with success false echoing
`pid` — dispatches nothing ever, reads exactly one packet (none of the later
arrivals is read), and leaves the connection listed. -/
theorem auth_failure_closes_connection (secret : String) (stream : Conn)
    (conns : List Conn) (p : Packet) (rest : List Packet) (pid : PV)
    (hauth : ¬getF p "auth" = some (.ps secret))
    (hid : getF p "id" = some pid) :
    handle_connection secret stream conns (p :: rest) =
      ⟨[[("type", .ps "auth-response"), ("success", .pb false), ("id", pid)]],
        [], conns ++ [stream], 1⟩ := by
  unfold handle_connection handle_loop
  simp [hauth, authResp, hid]

/-- C3 witness: a first packet with the wrong secret, followed by a further
packet that is never read or dispatched. -/
theorem auth_failure_closes_connection_check :
    (¬getF [("type", PV.ps "auth"), ("auth", PV.ps "wrong"), ("id", PV.ps "c0")]
        "auth" = some (.ps "hunter2")) ∧
    getF [("type", PV.ps "auth"), ("auth", PV.ps "wrong"), ("id", PV.ps "c0")]
        "id" = some (.ps "c0") ∧
    handle_connection "hunter2" 7 [3]
        [[("type", PV.ps "auth"), ("auth", PV.ps "wrong"), ("id", PV.ps "c0")],
         [("type", PV.ps "eval"), ("id", PV.ps "c1")]] =
      ⟨[[("type", .ps "auth-response"), ("success", .pb false),
          ("id", .ps "c0")]], [], [3, 7], 1⟩ :=
  ⟨by decide, by decide,
   (auth_failure_closes_connection "hunter2" 7 [3]
       [("type", PV.ps "auth"), ("auth", PV.ps "wrong"), ("id", PV.ps "c0")]
       [[("type", PV.ps "eval"), ("id", PV.ps "c1")]]
       (PV.ps "c0") (by decide) (by decide)).trans (by decide)⟩
